import Mathlib

/-!
Verification of the content-type generator in `src/generate-content-types.ts`.

The TypeScript source is shallowly embedded below.  String values are kept as
Lean `String`s; the JavaScript operations used by the source
(`split`, `join`, `charAt(0).toUpperCase() + slice(1)`, template literals,
`Array.from(new Set(...))`, stable `sort`, `replace(/^plugin::/, ...)`) are
modelled by structurally recursive functions over the character-list
representation so that every definition is executable by the kernel.
The dynamic `import` of a custom-field extension module is modelled by an
explicit resolver parameter `String → JsonValue → Option String` (module path
and options in, produced type expression out; `none` covers a missing module,
a load error or an invocation error).  Messages printed with `console.error`
are collected as a list of diagnostic strings in the second component of the
result.  Platform path resolution (`path.resolve` / `path.join`) is modelled
as string concatenation with a slash, and the `localeCompare` comparator is
modelled as code-point lexicographic comparison.
-/

set_option maxRecDepth 100000

namespace Strapi

/-- Code-point comparison of character lists; models the `localeCompare`
based comparator of the source restricted to code-point order. -/
def charListLe : List Char → List Char → Bool
  | [], _ => true
  | _ :: _, [] => false
  | a :: as, b :: bs =>
      if a.toNat < b.toNat then true
      else if b.toNat < a.toNat then false
      else charListLe as bs

/-- Lexicographic (code-point) comparison of strings. -/
def strLe (a b : String) : Bool := charListLe a.data b.data

/-- Concatenation of a list of strings; models `Array.prototype.join` with
the empty separator. -/
def joinAll : List String → String
  | [] => ""
  | s :: rest => s ++ joinAll rest

/-- Models `Array.prototype.join` with a separator. -/
def joinSep (sep : String) : List String → String
  | [] => ""
  | [s] => s
  | s :: rest => s ++ sep ++ joinSep sep rest

/-- Splitting a character list at every separator character; models
`String.prototype.split` on a character class (empty pieces are kept,
exactly as in JavaScript). -/
def splitCharsAux (p : Char → Bool) : List Char → List (List Char)
  | [] => [[]]
  | c :: rest =>
      match splitCharsAux p rest with
      | [] => [[]]
      | g :: gs => if p c then [] :: g :: gs else (c :: g) :: gs

/-- Split a string at every character satisfying `p`. -/
def splitChars (p : Char → Bool) (s : String) : List String :=
  (splitCharsAux p s.data).map String.mk

/-- Source `capitalizeFirstLetter`: the empty string is returned unchanged
(the JavaScript source returns a falsy string as is), otherwise the first
character is upper-cased. -/
def capitalizeFirstLetter (s : String) : String :=
  match s.data with
  | [] => s
  | c :: cs => String.mk (c.toUpper :: cs)

/-- The delimiter class `[.-]` of the `toComponentType` split. -/
def componentDelims : Char → Bool := fun c => c == ('.') || c == ('-')

/-- Source `toComponentType`: split on `.` and `-`, title-case each segment,
concatenate.  A falsy (empty) input is returned unchanged. -/
def toComponentType (componentName : String) : String :=
  if componentName = "" then componentName
  else joinAll ((splitChars componentDelims componentName).map capitalizeFirstLetter)

/-- Opaque JSON value carried as the `options` of a custom-field attribute. -/
inductive JsonValue where
  | null
  | bool (b : Bool)
  | num (n : Int)
  | str (s : String)
  | arr (elems : List JsonValue)
  | obj (fields : List (String × JsonValue))

/-- One schema attribute, tagged by its kind, with the kind-specific payload
fields read by the source switch.  The `other` constructor models any tag
outside the handled enumeration (the `default` case of the switch). -/
inductive Attribute where
  | integer
  | decimal
  | biginteger
  | float
  | string
  | text
  | email
  | richtext
  | password
  | uid
  | date
  | time
  | datetime
  | boolean
  | enumeration (values : List String)
  | relation (relation : String)
  | media (multiple : Bool)
  | component (component : String) (repeatable : Bool)
  | json
  | dynamiczone (components : List String)
  | customField (customField : String) (options : JsonValue)
  | other (typeName : String)

/-- Type expression produced for a `oneToMany` or `manyToMany` relation
(source line 125). -/
def manyRelationType : String :=
  "number[] | \x7b set: number[] | \x7b id: number \x7d[] \x7d | \x7b disconnect?: number[] | \x7b id: number \x7d[], connect?: number[] | \x7b id: number, position?: \x7b before?: number, after?: number, start?: boolean, end?: boolean \x7d \x7d[] \x7d"

/-- Type expression produced for every other relation cardinality
(source line 126). -/
def oneRelationType : String :=
  "number | \x7b set: [number] | [\x7b id: number \x7d] \x7d | \x7b disconnect?: [number] | [\x7b id: number \x7d], connect?: [number] | [\x7b id: number, position?: \x7b before?: number, after?: number, start?: boolean, end?: boolean \x7d \x7d] \x7d"

/-- Strip one leading `plugin::` namespace from a custom-field identifier;
models `customField.replace(/^plugin::/, "")`. -/
def stripPluginNamespace (s : String) : String :=
  if ("plugin::").data.isPrefixOf s.data then String.mk (s.data.drop 8) else s

/-- Resolved path of a custom-field extension module:
`<extensionDir>/<strippedIdentifier>.js`.  The `path.resolve` calls of the
source are modelled as plain slash concatenation. -/
def customFieldPluginPath (dir field : String) : String :=
  dir ++ "/" ++ field ++ ".js"

/-- Source `getPropertyType`: the switch over the attribute kind.  Returns
the produced type expression together with the list of diagnostics printed
with `console.error` during the computation. -/
def getPropertyType (customFieldsExtensionDirectory : String)
    (resolveCustomField : String → JsonValue → Option String) :
    Attribute → String × List String
  | .integer | .decimal | .biginteger | .float => ("number", [])
  | .string | .text | .email | .richtext | .password | .uid | .date | .time =>
      ("string", [])
  | .datetime => ("Date", [])
  | .boolean => ("boolean", [])
  | .enumeration values =>
      ("(" ++ joinSep (" | ") (values.map (fun v => "`" ++ v ++ "`")) ++ ")", [])
  | .relation rel =>
      if (["oneToMany", "manyToMany"]).contains rel then (manyRelationType, [])
      else (oneRelationType, [])
  | .media multiple =>
      (if multiple then "\x7b id: number \x7d[]" else "number", [])
  | .component comp repeatable =>
      (toComponentType comp ++ (if repeatable then "[]" else ""), [])
  | .json => ("any", [])
  | .dynamiczone comps =>
      ("(" ++ joinSep (" | ") (comps.map toComponentType) ++ ")[]", [])
  | .customField cf opts =>
      let field := stripPluginNamespace cf
      let pluginPath := customFieldPluginPath customFieldsExtensionDirectory field
      match resolveCustomField pluginPath opts with
      | some s => (s, [])
      | none =>
          ("any //FIXME: missing custom field plugin for " ++ field,
           ["Missing custom field plugin for " ++ field ++ ".\nCreate a " ++ pluginPath ++ " file with the following signature:\nmodule.exports = function (options) \x7b\n  return \x27...\x27;\n\x7d\n          "])
  | .other typeName => ("any", ["Type not handled: " ++ typeName])

/-! Component-file recognition.  The source runs the regular expression
`/components\/([^\/]*)\/(.*)\.json/` against the schema file path and keeps
the two captures.  The functions below implement exactly those semantics:
leftmost start position, greedy `[^/]*` up to the first following slash,
greedy `(.*)` up to the last occurrence of `.json`. -/

/-- Character list of the literal part `components/` of the pattern. -/
def componentsMarker : List Char := ("components/").data

/-- Character list of the literal suffix `.json` of the pattern. -/
def jsonSuffix : List Char := (".json").data

/-- Greedy capture of `(.*)` before the last occurrence of `.json`:
returns the characters before that occurrence, or `none` when `.json` does
not occur. -/
def lastDotJson : List Char → Option (List Char)
  | [] => none
  | c :: rest =>
      match lastDotJson rest with
      | some nm => some (c :: nm)
      | none => if jsonSuffix.isPrefixOf (c :: rest) then some [] else none

/-- Attempt to match the pattern starting exactly at the head of `l`. -/
def matchComponentsAt (l : List Char) : Option (String × String) :=
  if componentsMarker.isPrefixOf l then
    let rest := l.drop componentsMarker.length
    let category := rest.takeWhile (fun c => !(c == ('/')))
    match rest.dropWhile (fun c => !(c == ('/'))) with
    | [] => none
    | _ :: afterSlash =>
        match lastDotJson afterSlash with
        | some nm => some (String.mk category, String.mk nm)
        | none => none
  else none

/-- Leftmost match of the pattern anywhere in the character list. -/
def searchComponents : List Char → Option (String × String)
  | [] => none
  | c :: rest =>
      match matchComponentsAt (c :: rest) with
      | some r => some r
      | none => searchComponents rest

/-- The `regex.exec(file)` captures `(category, name)` of the source, or
`none` when the path does not match. -/
def componentMatch (file : String) : Option (String × String) :=
  searchComponents file.data

/-- Truthiness of `strapiComponentCategory && strapiComponentName` in the
source: the file matches the component pattern with two non-empty captures. -/
def isComponentFile (file : String) : Bool :=
  match componentMatch file with
  | some (cat, nm) => !(cat == "") && !(nm == "")
  | none => false

/-! Schema descriptors, as read from the parsed JSON documents. -/

/-- The `info` object of a schema; only `singularName` is read. -/
structure SchemaInfo where
  singularName : Option String

/-- The `options` object of a schema; only `draftAndPublish` is read.  An
absent field is modelled by `false` (the source applies `!!`). -/
structure SchemaOptions where
  draftAndPublish : Bool

/-- One attribute entry: the `required` flag read from the raw object
(absent models as `false`) and the kind-tagged payload. -/
structure SchemaAttribute where
  required : Bool
  type : Attribute

/-- One parsed schema document. -/
structure Schema where
  info : SchemaInfo
  options : Option SchemaOptions
  attributes : List (String × SchemaAttribute)

/-- Truthiness of `schema.info.singularName` (absent or empty is falsy). -/
def truthyName : Option String → Bool
  | some s => !(s == "")
  | none => false

/-- Truthiness of `!!schema.options?.draftAndPublish`. -/
def hasDraftAndPublish (schema : Schema) : Bool :=
  match schema.options with
  | some o => o.draftAndPublish
  | none => false

/-- Keys of the `PARENTS_INTERFACES` record of the source (it has exactly
one entry). -/
inductive ParentKey where
  | DraftAndPublish
deriving DecidableEq

/-- Rendering of a parent-interface key as the identifier used in the
`extends` clause. -/
def parentKeyName : ParentKey → String
  | .DraftAndPublish => "DraftAndPublish"

/-- The `PARENTS_INTERFACES` record: declaration text of each marker
interface (source lines 29-38). -/
def PARENTS_INTERFACES : ParentKey → String
  | .DraftAndPublish =>
      "interface DraftAndPublish \x7b\n  /**\n   * If set to a date, content will be published, at creation, with the corresponding publication date.\n   * If not set (undefined), content will be published, at creation, with the date corresponding to the content creation date.\n   * If set to null, content will be created in Draft.\n   **/\n  publishedAt?: Date | null;\n\x7d\n\n"

/-- One rendered property of an interface. -/
structure Property where
  name : String
  required : Bool
  type : String
deriving DecidableEq

/-- The intermediate value built per schema by `computeInterfaces`.  A
malformed schema carries the empty interface name (the source stores `''`
after printing a diagnostic). -/
structure InterfaceSpec where
  interfaceName : String
  implementedInterfaces : List ParentKey
  properties : List Property
deriving DecidableEq

/-- Interface-name derivation of the source (lines 62-72), together with the
diagnostic printed for a malformed schema. -/
def deriveInterfaceName (file : String) (schema : Schema) : String × List String :=
  if truthyName schema.info.singularName then
    (toComponentType (schema.info.singularName.getD ""), [])
  else
    match componentMatch file with
    | some (cat, nm) =>
        if !(cat == "") && !(nm == "") then
          (capitalizeFirstLetter cat ++ toComponentType nm, [])
        else ("", ["Unexpected schema: " ++ file])
    | none => ("", ["Unexpected schema: " ++ file])

/-- Processing of one schema file (the body of the `map` in
`computeInterfaces`): derives the interface name, maps every attribute
through `getPropertyType` in declaration order, and records the marker
interfaces.  Returns the spec together with the diagnostics printed. -/
def computeInterface (extDir : String)
    (resolve : String → JsonValue → Option String)
    (file : String) (schema : Schema) : InterfaceSpec × List String :=
  let nameResult := deriveInterfaceName file schema
  let propResults := schema.attributes.map (fun a =>
    (({ name := a.1, required := a.2.required,
        type := (getPropertyType extDir resolve a.2.type).1 } : Property),
     (getPropertyType extDir resolve a.2.type).2))
  (({ interfaceName := nameResult.1,
      implementedInterfaces :=
        if hasDraftAndPublish schema then [ParentKey.DraftAndPublish] else [],
      properties := propResults.map Prod.fst } : InterfaceSpec),
   nameResult.2 ++ propResults.flatMap Prod.snd)

/-- Source `computeInterfaces` over the already-parsed `(path, schema)`
pairs, collecting all diagnostics. -/
def computeInterfaces (extDir : String)
    (resolve : String → JsonValue → Option String)
    (pairs : List (String × Schema)) : List InterfaceSpec × List String :=
  (pairs.map (fun fs => (computeInterface extDir resolve fs.1 fs.2).1),
   pairs.flatMap (fun fs => (computeInterface extDir resolve fs.1 fs.2).2))

/-- First-occurrence de-duplication; models `Array.from(new Set(...))`,
which keeps insertion order. -/
def distinctFirstAux [DecidableEq α] (seen : List α) : List α → List α
  | [] => []
  | x :: xs =>
      if x ∈ seen then distinctFirstAux seen xs
      else x :: distinctFirstAux (x :: seen) xs

/-- De-duplicate a list keeping the first occurrence of each element. -/
def distinctFirst [DecidableEq α] (l : List α) : List α :=
  distinctFirstAux [] l

/-- Source line 43: the de-duplicated marker-interface declarations
referenced by the computed interfaces. -/
def usedParentInterfacesCode (interfaces : List InterfaceSpec) : List String :=
  (distinctFirst (interfaces.flatMap (fun i => i.implementedInterfaces))).map PARENTS_INTERFACES

/-- Rendering of one property line of an interface body. -/
def renderProperty (p : Property) : String :=
  "  " ++ p.name ++ (if p.required then "" else "?") ++ ": " ++ p.type ++ ";"

/-- Rendering of one interface declaration (source lines 48-51). -/
def renderInterface (i : InterfaceSpec) : String :=
  "export interface " ++ i.interfaceName ++
    (if i.implementedInterfaces.length ≠ 0 then
      " extends " ++ joinSep (", ") (i.implementedInterfaces.map parentKeyName)
    else "") ++
    " \x7b\n" ++ joinSep ("\n") (i.properties.map renderProperty) ++ "\n\x7d\n\n"

/-- Stable insertion of `x` before the first element not below it. -/
def insertByLe (le : α → α → Bool) (x : α) : List α → List α
  | [] => [x]
  | y :: ys => if le x y then x :: y :: ys else y :: insertByLe le x ys

/-- Stable insertion sort; models the stable `Array.prototype.sort` of the
source (identical output for a total preorder comparator). -/
def insertionSortByLe (le : α → α → Bool) : List α → List α
  | [] => []
  | x :: xs => insertByLe le x (insertionSortByLe le xs)

/-- Comparator of source line 46, with `localeCompare` modelled as
code-point order. -/
def specLe (a b : InterfaceSpec) : Bool := strLe a.interfaceName b.interfaceName

/-- The interfaces that are actually exported: named ones (truthy
`interfaceName`), sorted by name. -/
def exportedInterfaces (interfaces : List InterfaceSpec) : List InterfaceSpec :=
  insertionSortByLe specLe (interfaces.filter (fun i => !(i.interfaceName == "")))

/-- Source lines 44-51: rendered declarations of the exported interfaces. -/
def interfacesToExportCode (interfaces : List InterfaceSpec) : List String :=
  (exportedInterfaces interfaces).map renderInterface

/-- Source line 53: the full ordered output stream. -/
def assembleOutput (interfaces : List InterfaceSpec) : List String :=
  usedParentInterfacesCode interfaces ++ interfacesToExportCode interfaces

/-! The run pipeline: directory check, file discovery, assembly. -/

/-- The filesystem visible to the tool: existing directories and parsed
schema files (JSON parsing is modelled as already done; parse failures are
outside the scope of the claims below). -/
structure FileTree where
  dirs : List String
  files : List (String × Schema)

/-- Models `globSync("**/schema.json", \x7bcwd: apiDir\x7d)`: every file under the
`api` subtree whose basename is `schema.json`.  A missing directory yields
the empty list, as the glob library does. -/
def getApiFiles (fsys : FileTree) (srcPath : String) : List (String × Schema) :=
  fsys.files.filter (fun f =>
    (srcPath ++ "/api/").data.isPrefixOf f.1.data && ("/schema.json").data.isSuffixOf f.1.data)

/-- Models `globSync("**/*.json", \x7bcwd: componentsDir\x7d)`. -/
def getComponentsFiles (fsys : FileTree) (srcPath : String) : List (String × Schema) :=
  fsys.files.filter (fun f =>
    (srcPath ++ "/components/").data.isPrefixOf f.1.data && (".json").data.isSuffixOf f.1.data)

/-- Outcome of a run: early process termination with an exit code, or normal
completion with the ordered output chunks and the diagnostics printed. -/
inductive RunResult where
  | exited (code : Nat)
  | completed (chunks : List String) (diagnostics : List String)
deriving DecidableEq

/-- The whole program: `getSrcPath` checks that `<root>/src` is an existing
directory and otherwise prints the remediation hint and calls
`process.exit(1)` before anything is written; then the two globs run and the
interfaces are computed, assembled and emitted. -/
def run (fsys : FileTree) (strapiRootDirectory extDir : String)
    (resolve : String → JsonValue → Option String) : RunResult :=
  let srcPath := strapiRootDirectory ++ "/src"
  if srcPath ∈ fsys.dirs then
    let pairs := getApiFiles fsys srcPath ++ getComponentsFiles fsys srcPath
    let r := computeInterfaces extDir resolve pairs
    .completed (assembleOutput r.1) r.2
  else .exited 1

/-- Well-formedness of the kind-specific fields of an attribute, as assumed
by the totality claim: a component reference must contain at least one
non-empty segment (a real Strapi component UID `category.name` always does);
every other kind has no constraint. -/
def wellFormedAttr : Attribute → Bool
  | .component comp _ => (splitChars componentDelims comp).any (fun s => !(s == ""))
  | _ => true

/-- A resolver with no extension modules at all. -/
def rnone : String → JsonValue → Option String := fun _ _ => none

/-- A schema carrying no singular name, no options and no attributes. -/
def schemaC : Schema := ⟨⟨none⟩, none, []⟩

/-- A root whose `src` directory exists but which has no `src/api` subtree
(and no schema files at all). -/
def tree0 : FileTree := ⟨["r/src"], []⟩

/-! Helper lemmas about the string model. -/

lemma string_eq_empty_iff {s : String} : s = "" ↔ s.data = [] := by
  cases s with
  | mk d =>
    constructor
    · intro h
      exact congrArg String.data h
    · intro h
      exact congrArg String.mk h

lemma append_ne_empty_left {s : String} (t : String) (h : s ≠ "") : s ++ t ≠ "" := by
  intro hc
  have hd : s.data ++ t.data = [] := by
    rw [← String.data_append]
    exact string_eq_empty_iff.mp hc
  exact h (string_eq_empty_iff.mpr (List.append_eq_nil.mp hd).1)

lemma append_ne_empty_right (s : String) {t : String} (h : t ≠ "") : s ++ t ≠ "" := by
  intro hc
  have hd : s.data ++ t.data = [] := by
    rw [← String.data_append]
    exact string_eq_empty_iff.mp hc
  exact h (string_eq_empty_iff.mpr (List.append_eq_nil.mp hd).2)

lemma joinAll_ne_empty {l : List String} {s : String} (hs : s ∈ l) (hne : s ≠ "") :
    joinAll l ≠ "" := by
  induction l with
  | nil => cases hs
  | cons a t ih =>
    show a ++ joinAll t ≠ ""
    rcases List.mem_cons.mp hs with h | h
    · subst h
      exact append_ne_empty_left _ hne
    · exact append_ne_empty_right _ (ih h)

lemma capitalizeFirstLetter_ne_empty {s : String} (h : s ≠ "") :
    capitalizeFirstLetter s ≠ "" := by
  cases hd : s.data with
  | nil => exact absurd (string_eq_empty_iff.mpr hd) h
  | cons c cs =>
    unfold capitalizeFirstLetter
    rw [hd]
    intro hc
    have := string_eq_empty_iff.mp hc
    simp at this

lemma toComponentType_ne_empty {n : String}
    (h : (splitChars componentDelims n).any (fun s => !(s == "")) = true) :
    toComponentType n ≠ "" := by
  obtain ⟨s, hs, hne⟩ := List.any_eq_true.mp h
  have hne' : s ≠ "" := by simpa using hne
  by_cases hn : n = ""
  · subst hn
    have hsp : splitChars componentDelims "" = [""] := rfl
    rw [hsp] at hs
    simp at hs
    exact (hne' hs).elim
  · unfold toComponentType
    rw [if_neg hn]
    exact joinAll_ne_empty (List.mem_map_of_mem capitalizeFirstLetter hs)
      (capitalizeFirstLetter_ne_empty hne')

lemma contains_cardinality_iff (card : String) :
    ((["oneToMany", "manyToMany"] : List String).contains card = true)
      ↔ (card = "oneToMany" ∨ card = "manyToMany") := by
  have hbase : ((["oneToMany", "manyToMany"] : List String).contains card = true)
      ↔ card ∈ ["oneToMany", "manyToMany"] := List.elem_iff
  rw [hbase]
  simp

lemma relation_eq_if (extDir : String) (resolve : String → JsonValue → Option String)
    (card : String) :
    getPropertyType extDir resolve (.relation card)
      = ((if card = "oneToMany" ∨ card = "manyToMany" then manyRelationType
          else oneRelationType), []) := by
  simp only [getPropertyType]
  by_cases h : card = "oneToMany" ∨ card = "manyToMany"
  · rw [if_pos ((contains_cardinality_iff card).mpr h), if_pos h]
  · rw [if_neg (fun hc => h ((contains_cardinality_iff card).mp hc)), if_neg h]

/-! Helper lemmas about marker-interface de-duplication. -/

lemma parentKey_eq (x : ParentKey) : x = ParentKey.DraftAndPublish := by
  cases x
  rfl

lemma distinctFirstAux_dp (l : List ParentKey) :
    distinctFirstAux [ParentKey.DraftAndPublish] l = [] := by
  induction l with
  | nil => rfl
  | cons x xs ih =>
    rw [parentKey_eq x]
    unfold distinctFirstAux
    rw [if_pos (List.mem_singleton.mpr rfl)]
    exact ih

lemma distinctFirst_dp (l : List ParentKey) :
    distinctFirst l = if l.isEmpty then [] else [ParentKey.DraftAndPublish] := by
  cases l with
  | nil => rfl
  | cons x xs =>
    rw [parentKey_eq x]
    show distinctFirstAux [] (ParentKey.DraftAndPublish :: xs) = _
    unfold distinctFirstAux
    rw [if_neg (List.not_mem_nil _)]
    rw [distinctFirstAux_dp]
    rfl

lemma flatMap_isEmpty_all (f : α → List β) (l : List α) :
    (l.flatMap f).isEmpty = l.all (fun a => (f a).isEmpty) := by
  induction l with
  | nil => rfl
  | cons a t ih =>
    rw [List.flatMap_cons, List.all_cons, ← ih]
    cases hfa : f a
    · simp
    · simp

lemma usedParent_shape (l : List InterfaceSpec) :
    usedParentInterfacesCode l
      = if l.all (fun i => i.implementedInterfaces.isEmpty) then []
        else [PARENTS_INTERFACES ParentKey.DraftAndPublish] := by
  unfold usedParentInterfacesCode
  rw [distinctFirst_dp, flatMap_isEmpty_all]
  by_cases h : l.all (fun i => i.implementedInterfaces.isEmpty) = true
  · rw [if_pos h, if_pos h]
    rfl
  · rw [if_neg h, if_neg h]
    rfl

/-! Helper lemmas about the stable insertion sort. -/

lemma mem_insertByLe {le : α → α → Bool} {x z : α} {l : List α} :
    z ∈ insertByLe le x l ↔ z = x ∨ z ∈ l := by
  induction l with
  | nil => simp [insertByLe]
  | cons y ys ih =>
    unfold insertByLe
    by_cases h : le x y = true
    · rw [if_pos h]
      simp [List.mem_cons]
    · rw [if_neg h]
      simp only [List.mem_cons, ih]
      tauto

lemma mem_insertionSortByLe {le : α → α → Bool} {z : α} :
    ∀ {l : List α}, z ∈ insertionSortByLe le l ↔ z ∈ l := by
  intro l
  induction l with
  | nil => simp [insertionSortByLe]
  | cons x xs ih =>
    show z ∈ insertByLe le x (insertionSortByLe le xs) ↔ _
    rw [mem_insertByLe]
    simp only [List.mem_cons, ih]

lemma pairwise_insertByLe {le : α → α → Bool}
    (htrans : ∀ a b c, le a b = true → le b c = true → le a c = true)
    (htot : ∀ a b, le a b = true ∨ le b a = true)
    (x : α) {l : List α} (h : l.Pairwise (fun a b => le a b = true)) :
    (insertByLe le x l).Pairwise (fun a b => le a b = true) := by
  induction l with
  | nil => simp [insertByLe]
  | cons y ys ih =>
    rcases List.pairwise_cons.mp h with ⟨hy, hys⟩
    unfold insertByLe
    by_cases hxy : le x y = true
    · rw [if_pos hxy]
      refine List.pairwise_cons.mpr ⟨?_, h⟩
      intro z hz
      rcases List.mem_cons.mp hz with rfl | hz'
      · exact hxy
      · exact htrans _ _ _ hxy (hy z hz')
    · rw [if_neg hxy]
      refine List.pairwise_cons.mpr ⟨?_, ih hys⟩
      intro z hz
      rcases mem_insertByLe.mp hz with hzx | hz'
      · rw [hzx]
        rcases htot x y with h' | h'
        · exact absurd h' hxy
        · exact h'
      · exact hy z hz'

lemma pairwise_insertionSortByLe {le : α → α → Bool}
    (htrans : ∀ a b c, le a b = true → le b c = true → le a c = true)
    (htot : ∀ a b, le a b = true ∨ le b a = true) :
    ∀ l : List α, (insertionSortByLe le l).Pairwise (fun a b => le a b = true) := by
  intro l
  induction l with
  | nil => simp [insertionSortByLe]
  | cons x xs ih =>
    show (insertByLe le x (insertionSortByLe le xs)).Pairwise _
    exact pairwise_insertByLe htrans htot x ih

/-! Helper lemmas about the code-point comparator. -/

lemma charListLe_total : ∀ (l1 l2 : List Char),
    charListLe l1 l2 = true ∨ charListLe l2 l1 = true := by
  intro l1
  induction l1 with
  | nil => intro l2; left; rfl
  | cons a as ih =>
    intro l2
    cases l2 with
    | nil => right; rfl
    | cons b bs =>
      unfold charListLe
      rcases Nat.lt_trichotomy a.toNat b.toNat with h | h | h
      · left
        simp [h]
      · rw [h]
        simp only [Nat.lt_irrefl, if_false]
        exact ih bs
      · right
        simp [h]

lemma charListLe_trans : ∀ (l1 l2 l3 : List Char),
    charListLe l1 l2 = true → charListLe l2 l3 = true → charListLe l1 l3 = true := by
  intro l1
  induction l1 with
  | nil => intro l2 l3 _ _; rfl
  | cons a as ih =>
    intro l2 l3 h12 h23
    cases l2 with
    | nil => simp [charListLe] at h12
    | cons b bs =>
      cases l3 with
      | nil => simp [charListLe] at h23
      | cons c cs =>
        unfold charListLe at h12 h23 ⊢
        by_cases hab : a.toNat < b.toNat
        · by_cases hbc : b.toNat < c.toNat
          · rw [if_pos (show a.toNat < c.toNat by omega)]
          · by_cases hcb : c.toNat < b.toNat
            · rw [if_neg hbc, if_pos hcb] at h23
              exact absurd h23 (by simp)
            · rw [if_pos (show a.toNat < c.toNat by omega)]
        · by_cases hba : b.toNat < a.toNat
          · rw [if_neg hab, if_pos hba] at h12
            exact absurd h12 (by simp)
          · rw [if_neg hab, if_neg hba] at h12
            by_cases hbc : b.toNat < c.toNat
            · rw [if_pos (show a.toNat < c.toNat by omega)]
            · by_cases hcb : c.toNat < b.toNat
              · rw [if_neg hbc, if_pos hcb] at h23
                exact absurd h23 (by simp)
              · rw [if_neg hbc, if_neg hcb] at h23
                rw [if_neg (show ¬ a.toNat < c.toNat by omega),
                    if_neg (show ¬ c.toNat < a.toNat by omega)]
                exact ih bs cs h12 h23

lemma specLe_total (a b : InterfaceSpec) : specLe a b = true ∨ specLe b a = true :=
  charListLe_total _ _

lemma specLe_trans (a b c : InterfaceSpec) :
    specLe a b = true → specLe b c = true → specLe a c = true :=
  charListLe_trans _ _ _

lemma mem_exportCode {l : List InterfaceSpec} {c : String}
    (hc : c ∈ interfacesToExportCode l) :
    ∃ i, i ∈ l ∧ i.interfaceName ≠ "" ∧ c = renderInterface i := by
  obtain ⟨i, hi, hci⟩ := List.mem_map.mp hc
  have hi' : i ∈ l.filter (fun i => !(i.interfaceName == "")) :=
    mem_insertionSortByLe.mp hi
  obtain ⟨hmem, hname⟩ := List.mem_filter.mp hi'
  refine ⟨i, hmem, ?_, hci.symm⟩
  simpa using hname

lemma deriveInterfaceName_malformed {file : String} {schema : Schema}
    (hname : truthyName schema.info.singularName = false)
    (hcomp : isComponentFile file = false) :
    deriveInterfaceName file schema = ("", ["Unexpected schema: " ++ file]) := by
  unfold deriveInterfaceName
  rw [hname]
  simp only [Bool.false_eq_true, if_false]
  unfold isComponentFile at hcomp
  cases hm : componentMatch file with
  | none => rfl
  | some r =>
    obtain ⟨cat, nm⟩ := r
    rw [hm] at hcomp
    have hcomp' : (!(cat == "") && !(nm == "")) = false := hcomp
    show (if (!(cat == "") && !(nm == "")) = true
          then (capitalizeFirstLetter cat ++ toComponentType nm, [])
          else ("", ["Unexpected schema: " ++ file]))
        = ("", ["Unexpected schema: " ++ file])
    rw [hcomp']
    rfl

/-! Claim theorems. -/

/-- Claim C1: for every attribute descriptor whose kind-specific fields are
well-formed, and for every resolver whose successful results are non-empty,
`getPropertyType` produces a non-empty type expression (it is a total
function by construction, so it never fails); every kind outside the handled
enumeration degrades to the permissive `any` type together with a diagnostic
naming the unhandled kind. -/
theorem getPropertyType_total_nonempty (extDir : String)
    (resolve : String → JsonValue → Option String) (a : Attribute)
    (hres : ∀ p o s, resolve p o = some s → s ≠ "")
    (hwf : wellFormedAttr a = true) :
    (getPropertyType extDir resolve a).1 ≠ ""
      ∧ ∀ k, getPropertyType extDir resolve (.other k)
          = ("any", ["Type not handled: " ++ k]) := by
  refine ⟨?_, fun k => rfl⟩
  cases a with
  | integer => exact (by decide : ("number" : String) ≠ "")
  | decimal => exact (by decide : ("number" : String) ≠ "")
  | biginteger => exact (by decide : ("number" : String) ≠ "")
  | float => exact (by decide : ("number" : String) ≠ "")
  | string => exact (by decide : ("string" : String) ≠ "")
  | text => exact (by decide : ("string" : String) ≠ "")
  | email => exact (by decide : ("string" : String) ≠ "")
  | richtext => exact (by decide : ("string" : String) ≠ "")
  | password => exact (by decide : ("string" : String) ≠ "")
  | uid => exact (by decide : ("string" : String) ≠ "")
  | date => exact (by decide : ("string" : String) ≠ "")
  | time => exact (by decide : ("string" : String) ≠ "")
  | datetime => exact (by decide : ("Date" : String) ≠ "")
  | boolean => exact (by decide : ("boolean" : String) ≠ "")
  | enumeration values =>
      exact append_ne_empty_right _ (by decide : (")" : String) ≠ "")
  | relation rel =>
      show (if (["oneToMany", "manyToMany"] : List String).contains rel = true
            then (manyRelationType, ([] : List String))
            else (oneRelationType, [])).1 ≠ ""
      split
      · exact (by decide : manyRelationType ≠ "")
      · exact (by decide : oneRelationType ≠ "")
  | media multiple =>
      cases multiple
      · exact (by decide : ("number" : String) ≠ "")
      · exact (by decide : ("\x7b id: number \x7d[]" : String) ≠ "")
  | component comp repeatable =>
      exact append_ne_empty_left _ (toComponentType_ne_empty hwf)
  | json => exact (by decide : ("any" : String) ≠ "")
  | dynamiczone comps =>
      exact append_ne_empty_right _ (by decide : (")[]" : String) ≠ "")
  | customField cf opts =>
      show (match resolve (customFieldPluginPath extDir (stripPluginNamespace cf)) opts with
            | some s => (s, ([] : List String))
            | none =>
                ("any //FIXME: missing custom field plugin for " ++ stripPluginNamespace cf,
                 ["Missing custom field plugin for " ++ stripPluginNamespace cf ++ ".\nCreate a " ++ customFieldPluginPath extDir (stripPluginNamespace cf) ++ " file with the following signature:\nmodule.exports = function (options) \x7b\n  return \x27...\x27;\n\x7d\n          "])).1 ≠ ""
      cases hr : resolve (customFieldPluginPath extDir (stripPluginNamespace cf)) opts with
      | some s => exact hres _ _ _ hr
      | none =>
          exact append_ne_empty_left _
            (by decide : ("any //FIXME: missing custom field plugin for " : String) ≠ "")
  | other k => exact (by decide : ("any" : String) ≠ "")

/-- Witness for C1 at a concrete component attribute and the resolver with
no extensions. -/
theorem getPropertyType_total_nonempty_witness :
    wellFormedAttr (.component ("layout.hero") false) = true
    ∧ (getPropertyType ("custom-field") rnone (.component ("layout.hero") false)).1 ≠ "" :=
  ⟨by decide,
   (getPropertyType_total_nonempty ("custom-field") rnone (.component ("layout.hero") false)
      (fun _ _ _ h => Option.noConfusion h) (by decide)).1⟩

/-- Claim C2: the type produced for a relation attribute depends only on
whether the cardinality tag is `oneToMany` or `manyToMany` (the many case,
rendered as `manyRelationType`: bare id array, `\x7bset\x7d` form, and
`\x7bdisconnect?, connect?\x7d` form with positional hints) versus any other
cardinality (the one case, rendered as `oneRelationType`, the singular
analogue of the same three shapes). -/
theorem relation_type_by_cardinality (extDir : String)
    (resolve : String → JsonValue → Option String) (card : String) :
    getPropertyType extDir resolve (.relation card)
      = ((if card = "oneToMany" ∨ card = "manyToMany" then manyRelationType
          else oneRelationType), [])
    ∧ ∀ c1 c2 : String,
        ((c1 = "oneToMany" ∨ c1 = "manyToMany") ↔ (c2 = "oneToMany" ∨ c2 = "manyToMany")) →
        getPropertyType extDir resolve (.relation c1)
          = getPropertyType extDir resolve (.relation c2) := by
  refine ⟨relation_eq_if extDir resolve card, ?_⟩
  intro c1 c2 hiff
  rw [relation_eq_if extDir resolve c1, relation_eq_if extDir resolve c2]
  by_cases h : c1 = "oneToMany" ∨ c1 = "manyToMany"
  · rw [if_pos h, if_pos (hiff.mp h)]
  · rw [if_neg h, if_neg (fun hc => h (hiff.mpr hc))]

/-- Claim C6: an enumeration attribute with declared values maps to the
closed union of exactly those values, each rendered as a string-literal
type, in declared order; in particular `["a","b","c"]` maps to a union of
those three literals in that order. -/
theorem enumeration_union_in_order (extDir : String)
    (resolve : String → JsonValue → Option String)
    (values : List String) (_hne : values ≠ []) :
    getPropertyType extDir resolve (.enumeration values)
      = ("(" ++ joinSep (" | ") (values.map (fun v => "`" ++ v ++ "`")) ++ ")", [])
    ∧ getPropertyType extDir resolve (.enumeration (["a", "b", "c"]))
      = ("(`a` | `b` | `c`)", []) := by
  refine ⟨rfl, ?_⟩
  have hh : ("(" ++ joinSep (" | ") ((["a", "b", "c"] : List String).map (fun v => "`" ++ v ++ "`")) ++ ")" : String) = "(`a` | `b` | `c`)" := by decide
  exact congrArg (fun s => (s, ([] : List String))) hh

/-- Witness for C6 at the concrete value list of the claim. -/
theorem enumeration_union_in_order_witness :
    (["a", "b", "c"] : List String) ≠ []
    ∧ getPropertyType ("custom-field") rnone (.enumeration (["a", "b", "c"]))
        = ("(`a` | `b` | `c`)", []) :=
  ⟨by decide,
   (enumeration_union_in_order ("custom-field") rnone (["a", "b", "c"]) (by decide)).2⟩

/-- Claim C7: a component attribute maps to the referenced component
reference title-cased per dot- and dash-delimited segment and concatenated,
suffixed with `[]` exactly when `repeatable` is true; in particular the
component of category `layout` and name `hero-banner` with
`repeatable = true` maps to `LayoutHeroBanner[]`. -/
theorem component_type_mapping (extDir : String)
    (resolve : String → JsonValue → Option String) :
    (∀ (n : String) (r : Bool),
        getPropertyType extDir resolve (.component n r)
          = (toComponentType n ++ (if r then "[]" else ""), []))
    ∧ getPropertyType extDir resolve (.component ("layout.hero-banner") true)
      = ("LayoutHeroBanner[]", []) := by
  refine ⟨fun n r => rfl, ?_⟩
  have hh : (toComponentType ("layout.hero-banner") ++ (if true then "[]" else "") : String)
      = "LayoutHeroBanner[]" := by decide
  exact congrArg (fun s => (s, ([] : List String))) hh

/-- Claim C10: an enumeration attribute with an empty value list maps to
exactly the string `()` (an empty union wrapped in parentheses), with no
diagnostic and no fallback to the permissive type. -/
theorem empty_enumeration_unit (extDir : String)
    (resolve : String → JsonValue → Option String) :
    getPropertyType extDir resolve (.enumeration ([])) = ("()", []) := rfl

/-- Claim C3: when the resolver finds no extension module at the resolved
path of a custom-field identifier (after stripping a leading `plugin::`),
the mapping returns the permissive `any` type annotated with a FIXME marker
referencing the identifier, and emits one diagnostic containing the
identifier, the exact resolved module path, and the template of the
expected one-argument extension function; being a total function, the
mapping continues instead of aborting. -/
theorem customField_missing_fallback (extDir : String)
    (resolve : String → JsonValue → Option String) (cf : String) (opts : JsonValue)
    (h : resolve (customFieldPluginPath extDir (stripPluginNamespace cf)) opts = none) :
    getPropertyType extDir resolve (.customField cf opts)
      = ("any //FIXME: missing custom field plugin for " ++ stripPluginNamespace cf,
         ["Missing custom field plugin for " ++ stripPluginNamespace cf ++ ".\nCreate a "
            ++ customFieldPluginPath extDir (stripPluginNamespace cf)
            ++ " file with the following signature:\nmodule.exports = function (options) \x7b\n  return \x27...\x27;\n\x7d\n          "]) := by
  show (match resolve (customFieldPluginPath extDir (stripPluginNamespace cf)) opts with
        | some s => (s, ([] : List String))
        | none =>
            ("any //FIXME: missing custom field plugin for " ++ stripPluginNamespace cf,
             ["Missing custom field plugin for " ++ stripPluginNamespace cf ++ ".\nCreate a " ++ customFieldPluginPath extDir (stripPluginNamespace cf) ++ " file with the following signature:\nmodule.exports = function (options) \x7b\n  return \x27...\x27;\n\x7d\n          "])) = _
  rw [h]

/-- Witness for C3 at a concrete identifier with the empty resolver. -/
theorem customField_missing_fallback_witness :
    rnone (customFieldPluginPath ("custom-field") (stripPluginNamespace ("plugin::color.picker"))) JsonValue.null = none
    ∧ getPropertyType ("custom-field") rnone (.customField ("plugin::color.picker") JsonValue.null)
      = ("any //FIXME: missing custom field plugin for color.picker",
         ["Missing custom field plugin for color.picker.\nCreate a custom-field/color.picker.js file with the following signature:\nmodule.exports = function (options) \x7b\n  return \x27...\x27;\n\x7d\n          "]) :=
  ⟨rfl,
   (customField_missing_fallback ("custom-field") rnone ("plugin::color.picker")
      JsonValue.null rfl).trans (by decide)⟩

/-- Claim C4 counterexample: a root whose `src` directory exists but which
has no `src/api` subtree does NOT terminate with a non-zero exit; the run
completes normally (here with empty output), because the source only checks
for `<root>/src` and the globs of a missing directory are empty. -/
theorem run_missing_api_counterexample :
    tree0.dirs.contains ("r/src") = true
    ∧ tree0.dirs.contains ("r/src/api") = false
    ∧ tree0.files = []
    ∧ run tree0 ("r") ("custom-field") rnone = .completed [] []
    ∧ run tree0 ("r") ("custom-field") rnone ≠ .exited 1 := by
  refine ⟨by decide, by decide, rfl, by decide, ?_⟩
  intro hc
  exact RunResult.noConfusion ((by decide : run tree0 ("r") ("custom-field") rnone = .completed [] []).symm.trans hc)

/-- Claim C4, amended: when `<root>/src` is not an existing directory, the
run terminates immediately with exit code 1 and produces no output (the
exit happens before the globs and before anything is written). -/
theorem run_missing_src_exits (fsys : FileTree) (root extDir : String)
    (resolve : String → JsonValue → Option String)
    (h : (root ++ "/src") ∉ fsys.dirs) :
    run fsys root extDir resolve = .exited 1 := by
  unfold run
  rw [if_neg h]

/-- Witness for the amended C4 at an empty filesystem. -/
theorem run_missing_src_exits_witness :
    (("r" ++ "/src") ∉ (FileTree.mk [] []).dirs)
    ∧ run (FileTree.mk [] []) ("r") ("custom-field") rnone = .exited 1 :=
  ⟨by decide, run_missing_src_exits (FileTree.mk [] []) ("r") ("custom-field") rnone (by decide)⟩

/-- Claim C5: the emitted output is the de-duplicated marker-interface
declarations (the DraftAndPublish marker appears exactly once as soon as
any schema references it, and a schema references it — so that its
interface extends it — exactly when its options set `draftAndPublish`),
followed by the named interface declarations sorted by interface name;
concretely `Apple` sorts before `Zebra`. -/
theorem assembler_marker_once_and_sorted (extDir : String)
    (resolve : String → JsonValue → Option String)
    (pairs : List (String × Schema)) :
    usedParentInterfacesCode (computeInterfaces extDir resolve pairs).1
      = (if (computeInterfaces extDir resolve pairs).1.all
            (fun i => i.implementedInterfaces.isEmpty)
         then [] else [PARENTS_INTERFACES ParentKey.DraftAndPublish])
    ∧ (∀ p ∈ pairs,
        (computeInterface extDir resolve p.1 p.2).1.implementedInterfaces
          = if hasDraftAndPublish p.2 then [ParentKey.DraftAndPublish] else [])
    ∧ List.Pairwise (fun a b => specLe a b = true)
        (exportedInterfaces (computeInterfaces extDir resolve pairs).1)
    ∧ assembleOutput (computeInterfaces extDir resolve pairs).1
      = usedParentInterfacesCode (computeInterfaces extDir resolve pairs).1
        ++ (exportedInterfaces (computeInterfaces extDir resolve pairs).1).map renderInterface
    ∧ exportedInterfaces
        ([⟨"Zebra", [], []⟩, ⟨"Apple", [], []⟩] : List InterfaceSpec)
      = [⟨"Apple", [], []⟩, ⟨"Zebra", [], []⟩] := by
  refine ⟨usedParent_shape _, fun p _ => rfl, ?_, rfl, by decide⟩
  exact pairwise_insertionSortByLe specLe_trans specLe_total _

/-- Claim C8: a schema with no truthy singular name whose file path does not
match the components pattern yields the empty interface name together with
a diagnostic naming the offending file; and every emitted interface
declaration comes from a spec with a non-empty name, so such a schema is
excluded from the output entirely while the (total) run continues over the
remaining schemas. -/
theorem malformed_schema_skipped (extDir : String)
    (resolve : String → JsonValue → Option String)
    (file : String) (schema : Schema)
    (hname : truthyName schema.info.singularName = false)
    (hcomp : isComponentFile file = false) :
    (computeInterface extDir resolve file schema).1.interfaceName = ""
    ∧ ("Unexpected schema: " ++ file) ∈ (computeInterface extDir resolve file schema).2
    ∧ ∀ (l : List InterfaceSpec) (c : String), c ∈ interfacesToExportCode l →
        ∃ i, i ∈ l ∧ i.interfaceName ≠ "" ∧ c = renderInterface i := by
  have hd := deriveInterfaceName_malformed hname hcomp
  refine ⟨?_, ?_, fun l c hc => mem_exportCode hc⟩
  · show (deriveInterfaceName file schema).1 = ""
    rw [hd]
  · show ("Unexpected schema: " ++ file)
        ∈ (deriveInterfaceName file schema).2
          ++ (schema.attributes.map (fun a =>
                (({ name := a.1, required := a.2.required,
                    type := (getPropertyType extDir resolve a.2.type).1 } : Property),
                 (getPropertyType extDir resolve a.2.type).2))).flatMap Prod.snd
    rw [hd]
    exact List.mem_append_left _ (List.mem_singleton.mpr rfl)

/-- Witness for C8 at a concrete api-path file with a schema that has no
singular name. -/
theorem malformed_schema_skipped_witness :
    truthyName schemaC.info.singularName = false
    ∧ isComponentFile ("r/src/api/post/schema.json") = false
    ∧ (computeInterface ("custom-field") rnone ("r/src/api/post/schema.json") schemaC).1.interfaceName = ""
    ∧ ("Unexpected schema: " ++ "r/src/api/post/schema.json")
        ∈ (computeInterface ("custom-field") rnone ("r/src/api/post/schema.json") schemaC).2 := by
  have h := malformed_schema_skipped ("custom-field") rnone ("r/src/api/post/schema.json")
    schemaC (by decide) (by decide)
  exact ⟨by decide, by decide, h.1, h.2.1⟩

/-- Claim C9: the interface-name derivation is not injective — the distinct
component names `hero-banner` and `hero.banner` title-case to the same
`HeroBanner` — and the assembler emits the two identically named interfaces
twice, without reconciliation. -/
theorem interface_name_collision :
    ("hero-banner" : String) ≠ "hero.banner"
    ∧ toComponentType ("hero-banner") = toComponentType ("hero.banner")
    ∧ assembleOutput (computeInterfaces ("custom-field") rnone
        ([(("r/src/components/layout/hero-banner.json"), schemaC),
          (("r/src/components/layout/hero.banner.json"), schemaC)])).1
      = ["export interface LayoutHeroBanner \x7b\n\n\x7d\n\n",
         "export interface LayoutHeroBanner \x7b\n\n\x7d\n\n"] := by
  refine ⟨by decide, by decide, by decide⟩

end Strapi
